import Mathlib

/-!
Verification of the force-directed-graph physics core (`src/physics.rs`,
`src/main_state.rs`, `src/edge.rs`) against its specification.

Modelling conventions:

* `f32` values are idealised as exact rationals extended with the IEEE-754
  special values `+inf`, `-inf` and `NaN` (type `FF` below).  Arithmetic on
  finite values is exact (no rounding, no overflow); the special-value rules
  (sign of infinities, `inf * 0 = NaN`, `inf - inf = NaN`, comparisons with
  `NaN` are false, division of a nonzero finite number by zero gives a signed
  infinity) follow IEEE-754.  `ℚ` has a single zero, which is treated as
  IEEE `+0`; the only zeros produced by the modelled code are `+0`
  (differences `x - x` and `sqrt` outputs).
* The source computes `dist = sqrt(dx*dx + dy*dy + dz*dz)` and then uses
  `dist` only (a) in the comparisons `dist >= DEFAULT_MAX_DIST`,
  `dist <= DEFAULT_MIN_DIST`, `dist.is_nan()` and (b) in force expressions in
  which `dist` occurs an even number of times
  (`force_x = (strength * (alpha/dist)) * dx * (alpha/dist)` in the repulsion
  pass and `force_x = ((-strength * (dist*1e-5)) * dx) * (dist*1e-5)` in the
  spring pass).  Since `sqrt` is monotone and maps `0, +inf, NaN` to
  themselves, the square root is eliminated: the comparisons become
  comparisons of squared distances against squared constants, and the force
  expressions use the squared distance directly.  The special-value cases
  coincide: e.g. at `distSq = 0` the source computes
  `alpha/dist = +inf`, `force = strength * +inf = ±inf`,
  `force * dx = ±inf * 0 = NaN`, and the model computes
  `strength * dx = 0`, `alpha*alpha/distSq = +inf`, `0 * +inf = NaN`.
* `Vec<T>` becomes `List T`; `BTreeMap<u32, Vec<u32>>` becomes an association
  list `List (ℕ × List ℕ)` holding the map's iteration sequence (ascending
  unique keys in the source; the proofs below never need the ordering itself,
  concrete instances supply it sorted).  `unsafe get_unchecked` and slice
  indexing become `List.getD _ _ default`; at every use site of the source
  the index is in bounds (loop indices below `len`, plus the adjacency
  invariant for edge ids), so the default is never taken.
* `u32` / `usize` ids and indices become `ℕ`; the two places where the source
  converts between them are kept: `dragging.map(|x| x as usize)
  .unwrap_or(usize::MAX)` becomes `Option.getD _ USIZE_MAX`, and the spring
  pass's `node == dragging as u32` truncation becomes `% 4294967296`.
-/

/-- Idealised `f32`: an exact rational, `+inf`, `-inf`, or `NaN`. -/
inductive FF where
  | fin (q : ℚ)
  | pinf
  | ninf
  | nan
  deriving DecidableEq

namespace FF

/-- `f32::is_nan`. -/
def isNan : FF → Bool
  | nan => true
  | _ => false

/-- IEEE negation. -/
def neg : FF → FF
  | fin q => fin (-q)
  | pinf => ninf
  | ninf => pinf
  | nan => nan

/-- IEEE addition (exact on finite values). -/
def add : FF → FF → FF
  | nan, _ => nan
  | _, nan => nan
  | fin a, fin b => fin (a + b)
  | fin _, pinf => pinf
  | pinf, fin _ => pinf
  | fin _, ninf => ninf
  | ninf, fin _ => ninf
  | pinf, pinf => pinf
  | ninf, ninf => ninf
  | pinf, ninf => nan
  | ninf, pinf => nan

/-- IEEE subtraction, `a - b = a + (-b)`. -/
def sub (a b : FF) : FF := a.add b.neg

/-- IEEE multiplication (exact on finite values; `0 * inf = NaN`). -/
def mul : FF → FF → FF
  | nan, _ => nan
  | _, nan => nan
  | fin a, fin b => fin (a * b)
  | fin a, pinf => if 0 < a then pinf else if a < 0 then ninf else nan
  | pinf, fin a => if 0 < a then pinf else if a < 0 then ninf else nan
  | fin a, ninf => if 0 < a then ninf else if a < 0 then pinf else nan
  | ninf, fin a => if 0 < a then ninf else if a < 0 then pinf else nan
  | pinf, pinf => pinf
  | ninf, ninf => pinf
  | pinf, ninf => ninf
  | ninf, pinf => ninf

/-- IEEE division (exact on finite values; a nonzero finite number divided by
(+)0 is a signed infinity, `0/0 = NaN`, `inf/inf = NaN`). -/
def div : FF → FF → FF
  | nan, _ => nan
  | _, nan => nan
  | fin a, fin b =>
      if b = 0 then (if a = 0 then nan else if 0 < a then pinf else ninf)
      else fin (a / b)
  | fin _, pinf => fin 0
  | fin _, ninf => fin 0
  | pinf, fin a => if 0 ≤ a then pinf else ninf
  | ninf, fin a => if 0 ≤ a then ninf else pinf
  | pinf, pinf => nan
  | pinf, ninf => nan
  | ninf, pinf => nan
  | ninf, ninf => nan

/-- IEEE `<=` (every comparison involving `NaN` is false). -/
def le : FF → FF → Bool
  | nan, _ => false
  | _, nan => false
  | ninf, _ => true
  | fin _, pinf => true
  | pinf, pinf => true
  | pinf, fin _ => false
  | pinf, ninf => false
  | fin _, ninf => false
  | fin a, fin b => decide (a ≤ b)

instance : Add FF := ⟨FF.add⟩
instance : Sub FF := ⟨FF.sub⟩
instance : Mul FF := ⟨FF.mul⟩
instance : Neg FF := ⟨FF.neg⟩
instance : Inhabited FF := ⟨FF.fin 0⟩

end FF

/-- `pub const DEFAULT_STRENGTH: f32 = -100.0`. -/
def DEFAULT_STRENGTH : FF := FF.fin (-100)

/-- `pub const DEFAULT_MAX_DIST: f32 = 500.0`. -/
def DEFAULT_MAX_DIST : ℚ := 500

/-- `pub const DEFAULT_MIN_DIST: f32 = 200.0`. -/
def DEFAULT_MIN_DIST : ℚ := 200

/-- `usize::MAX` (the sentinel produced by `unwrap_or(usize::MAX)`). -/
def USIZE_MAX : ℕ := 18446744073709551615

/-- `2^32`, modulus of the `dragging as u32` truncation in the spring pass. -/
def U32_MOD : ℕ := 4294967296

/-- `struct Object { i: u32, x: f32, y: f32, z: f32, strength: f32 }`. -/
structure Object where
  i : ℕ
  x : FF
  y : FF
  z : FF
  strength : FF
  deriving DecidableEq

instance : Inhabited Object := ⟨⟨0, default, default, default, default⟩⟩

/-- The position-relevant part of `struct Node` (`node.rs`): its
`position: cgmath::Vector3<f32>`.  The remaining fields (`size`, `rotation`,
`color`) are never read or written by the physics core. -/
structure Node where
  position : FF × FF × FF
  deriving DecidableEq

instance : Inhabited Node := ⟨⟨default, default, default⟩⟩

/-- The simulator-relevant part of `struct Edge` (`edge.rs`): endpoint ids and
cached endpoint positions.  `color` and `line_width` are never touched by the
physics core. -/
structure Edge where
  a_id : ℕ
  b_id : ℕ
  a_center : FF × FF × FF
  b_center : FF × FF × FF
  deriving DecidableEq

instance : Inhabited Edge := ⟨⟨0, 0, default, default⟩⟩

/-- `struct Physics`.  The source also carries `alpha_decay` and
`alpha_target`; `tick` neither writes them nor (in the current code) reads
them — the decay update is commented out — and no property below mentions
them, so they are omitted from the model. -/
structure Physics where
  objs : List Object
  alpha : FF
  deriving DecidableEq

/-- `Object::from_node`. -/
def Object.from_node (i : ℕ) (node : Node) (strength : FF) : Object :=
  { x := node.position.1
    y := node.position.2.1
    z := node.position.2.2
    strength := strength
    i := i }

/-- `Physics::new`. -/
def Physics.new (nodes : List Node) : Physics :=
  { objs := nodes.enum.map fun p => Object.from_node p.1 p.2 DEFAULT_STRENGTH
    alpha := FF.fin 1 }

/-- One iteration of the inner repulsion loop of `Physics::tick` (body of
`for j in 0..len` for outer index `i`): re-reads `objs[i]` and `objs[j]` from
the current state, skips the pair if the ids coincide, computes the squared
distance, applies the cutoff/NaN guard (`dist >= DEFAULT_MAX_DIST ||
dist.is_nan()` on `dist = sqrt(distSq)`, expressed on squares), and otherwise
subtracts the force (`force = other.strength * (alpha/dist);
force_x = force * dx * (alpha/dist)`, i.e. `other.strength * dx *
(alpha*alpha/distSq)`) from `objs[i]`'s coordinates. -/
def repStep (alpha : FF) (i j : ℕ) (objs : List Object) : List Object :=
  let obj := objs.getD i default
  let other := objs.getD j default
  if obj.i = other.i then objs
  else
    let dx := obj.x - other.x
    let dy := obj.y - other.y
    let dz := obj.z - other.z
    let distSq := dx * dx + dy * dy + dz * dz
    if FF.le (FF.fin (DEFAULT_MAX_DIST * DEFAULT_MAX_DIST)) distSq || distSq.isNan
    then objs
    else
      let recipSq := (alpha * alpha).div distSq
      let force_x := other.strength * dx * recipSq
      let force_y := other.strength * dy * recipSq
      let force_z := other.strength * dz * recipSq
      objs.set i
        { obj with x := obj.x - force_x, y := obj.y - force_y, z := obj.z - force_z }

/-- Phase 1 of `Physics::tick`: the double loop over ordered pairs, skipping
outer indices equal to the (sentinel-encoded) dragging index.  `len` is read
once before the loops, as in the source. -/
def repulsionPhase (alpha : FF) (drag : ℕ) (objs : List Object) : List Object :=
  let len := objs.length
  (List.range len).foldl
    (fun acc i =>
      if i = drag then acc
      else (List.range len).foldl (fun acc2 j => repStep alpha i j acc2) acc)
    objs

/-- One iteration of the inner spring loop of `Physics::tick` for map key
`node` and incident edge id `other_id`: resolves the opposite endpoint,
applies the NaN guard and the rest-length guard (`dist <= DEFAULT_MIN_DIST`,
expressed on squares), and otherwise subtracts the force
(`dist = dist * 0.00001; force = -a.strength * dist;
force_x = (force * dx) * dist`, i.e. `(-a.strength * dx) *
(distSq * 0.00001^2)`) from `objs[node]`'s coordinates. -/
def springStep (edges : List Edge) (node : ℕ) (objs : List Object)
    (other_id : ℕ) : List Object :=
  let edge := edges.getD other_id default
  let a := objs.getD node default
  let b :=
    if node = edge.a_id then objs.getD edge.b_id default
    else objs.getD edge.a_id default
  let dx := a.x - b.x
  let dy := a.y - b.y
  let dz := a.z - b.z
  let distSq := dx * dx + dy * dy + dz * dz
  if distSq.isNan then objs
  else if FF.le distSq (FF.fin (DEFAULT_MIN_DIST * DEFAULT_MIN_DIST)) then objs
  else
    let scaledSq := distSq * FF.fin (1 / 10000000000)
    let force_x := (FF.neg a.strength * dx) * scaledSq
    let force_y := (FF.neg a.strength * dy) * scaledSq
    let force_z := (FF.neg a.strength * dz) * scaledSq
    objs.set node
      { a with x := a.x - force_x, y := a.y - force_y, z := a.z - force_z }

/-- Phase 2 of `Physics::tick`: iterate the adjacency map's entries in
sequence, skipping the key equal to the dragging index truncated to `u32`
(`node == dragging as u32`), and fold the incident edges of each key. -/
def springPhase (drag : ℕ) (edges : List Edge) (edgeMap : List (ℕ × List ℕ))
    (objs : List Object) : List Object :=
  edgeMap.foldl
    (fun acc e =>
      if e.1 = drag % U32_MOD then acc
      else e.2.foldl (springStep edges e.1) acc)
    objs

/-- `Physics::tick`: sets `alpha = 1.0` (the decay update above it is
commented out in the source), encodes `dragging` with the `usize::MAX`
sentinel, then runs the repulsion phase followed by the spring phase. -/
def Physics.tick (p : Physics) (dragging : Option ℕ) (edges : List Edge)
    (edgeMap : List (ℕ × List ℕ)) : Physics :=
  let alpha := FF.fin 1
  let drag := dragging.getD USIZE_MAX
  let objs1 := repulsionPhase alpha drag p.objs
  let objs2 := springPhase drag edges edgeMap objs1
  { objs := objs2, alpha := alpha }

/-- `Object::apply`: write the object's coordinates into the node. -/
def Object.apply (o : Object) (n : Node) : Node :=
  { n with position := (o.x, o.y, o.z) }

/-- `Object::apply_edge`: refresh whichever cached endpoint of `edge` matches
`id` (`a_id` is checked first; on a self-loop only `a_center` is written). -/
def Object.apply_edge (_o : Object) (id : ℕ) (n : Node) (e : Edge) : Edge :=
  if e.a_id = id then { e with a_center := n.position }
  else if e.b_id = id then { e with b_center := n.position }
  else e

/-- The body of `Physics::apply`'s loop for one enumerated object `(i, obj)`:
write the object's coordinates into node `i`, then refresh the cached centers
of every edge listed under key `i` in the adjacency map. -/
def syncStep (edgeMap : List (ℕ × List ℕ)) (st : List Node × List Edge)
    (io : ℕ × Object) : List Node × List Edge :=
  let i := io.1
  let obj := io.2
  let node := obj.apply (st.1.getD i default)
  let nodes := st.1.set i node
  match edgeMap.lookup i with
  | some node_edges =>
      (nodes,
        node_edges.foldl
          (fun es edge_id =>
            es.set edge_id (obj.apply_edge i node (es.getD edge_id default)))
          st.2)
  | none => (nodes, st.2)

/-- `Physics::apply`: the `assert_eq!(nodes.len(), self.objs.len())` becomes
the `Option` guard (`none` models the assertion failure, before any state is
written); on success the enumerated fold mirrors the source loop. -/
def Physics.apply (p : Physics) (nodes : List Node) (edges : List Edge)
    (edgeMap : List (ℕ × List ℕ)) : Option (List Node × List Edge) :=
  if nodes.length = p.objs.length then
    some (p.objs.enum.foldl (syncStep edgeMap) (nodes, edges))
  else none

/-- The part of `State` (`main_state.rs`) relevant to node insertion: the
physics store and the externally owned node collection
(`node_render_pass.nodes`). -/
structure State where
  physics : Physics
  nodes : List Node

/-- `State::add_node`: reads `idx = nodes.len()`, pushes
`Object::from_node(idx as u32, &node, DEFAULT_STRENGTH)` onto the physics
store, then pushes the node onto the node collection
(`NodeRenderPass::add_node`). -/
def State.add_node (s : State) (node : Node) : State :=
  let idx := s.nodes.length
  { physics :=
      { s.physics with
          objs := s.physics.objs ++ [Object.from_node idx node DEFAULT_STRENGTH] }
    nodes := s.nodes ++ [node] }

/-! ### Helper lemmas on `List.set` / `List.getD` / folds -/

theorem getD_set (l : List α) (i j : ℕ) (v d : α) :
    (l.set i v).getD j d = if i = j ∧ i < l.length then v else l.getD j d := by
  induction l generalizing i j with
  | nil => simp
  | cons a t ih =>
      cases i with
      | zero =>
          cases j with
          | zero => simp
          | succ j => simp
      | succ i =>
          cases j with
          | zero => simp
          | succ j =>
              simp only [List.set, List.getD_cons_succ, ih, List.length_cons]
              have hiff : (i + 1 = j + 1 ∧ i + 1 < t.length + 1) ↔
                  (i = j ∧ i < t.length) := by omega
              simp only [hiff]

theorem foldl_preserves {α β : Type _} {P : α → Prop} {f : α → β → α}
    (h : ∀ a b, P a → P (f a b)) :
    ∀ (l : List β) (a : α), P a → P (l.foldl f a) := by
  intro l
  induction l with
  | nil => intro a ha; exact ha
  | cons b t ih => intro a ha; exact ih _ (h a b ha)

theorem repStep_length (alpha : FF) (i j : ℕ) (objs : List Object) :
    (repStep alpha i j objs).length = objs.length := by
  dsimp only [repStep]
  split
  · rfl
  · split
    · rfl
    · exact List.length_set ..

theorem repStep_getD_ne (alpha : FF) (i j k : ℕ) (objs : List Object)
    (hk : i ≠ k) :
    (repStep alpha i j objs).getD k default = objs.getD k default := by
  dsimp only [repStep]
  split
  · rfl
  · split
    · rfl
    · rw [getD_set]
      simp [hk]

theorem repStep_keeps_id_strength (alpha : FF) (i j k : ℕ) (objs : List Object) :
    ((repStep alpha i j objs).getD k default).i = (objs.getD k default).i ∧
      ((repStep alpha i j objs).getD k default).strength
        = (objs.getD k default).strength := by
  dsimp only [repStep]
  split
  · exact ⟨rfl, rfl⟩
  · split
    · exact ⟨rfl, rfl⟩
    · rw [getD_set]
      split
      · rename_i h
        rw [h.1]
        exact ⟨rfl, rfl⟩
      · exact ⟨rfl, rfl⟩

theorem springStep_length (edges : List Edge) (node : ℕ) (objs : List Object)
    (oid : ℕ) : (springStep edges node objs oid).length = objs.length := by
  dsimp only [springStep]
  repeat' split
  all_goals first | rfl | exact List.length_set ..

theorem springStep_getD_ne (edges : List Edge) (node : ℕ) (objs : List Object)
    (oid k : ℕ) (hk : node ≠ k) :
    (springStep edges node objs oid).getD k default = objs.getD k default := by
  dsimp only [springStep]
  repeat' split
  all_goals first | rfl | (rw [getD_set]; simp [hk])

theorem springStep_keeps_id_strength (edges : List Edge) (node : ℕ)
    (objs : List Object) (oid k : ℕ) :
    ((springStep edges node objs oid).getD k default).i
        = (objs.getD k default).i ∧
      ((springStep edges node objs oid).getD k default).strength
        = (objs.getD k default).strength := by
  dsimp only [springStep]
  repeat' split
  all_goals
    first
      | exact ⟨rfl, rfl⟩
      | (rw [getD_set]
         split
         · rename_i h
           rw [h.1]
           exact ⟨rfl, rfl⟩
         · exact ⟨rfl, rfl⟩)

/-! ### Evaluation lemmas for `FF` on finite values -/

theorem FF.fin_add (a b : ℚ) : FF.fin a + FF.fin b = FF.fin (a + b) := rfl

theorem FF.fin_sub (a b : ℚ) : FF.fin a - FF.fin b = FF.fin (a - b) := by
  show FF.sub _ _ = _
  simp [FF.sub, FF.add, FF.neg, sub_eq_add_neg]

theorem FF.fin_mul (a b : ℚ) : FF.fin a * FF.fin b = FF.fin (a * b) := rfl

theorem FF.fin_isNan (a : ℚ) : (FF.fin a).isNan = false := rfl

theorem FF.fin_le (a b : ℚ) : FF.le (FF.fin a) (FF.fin b) = decide (a ≤ b) := rfl

theorem FF.hadd_def (a b : FF) : a + b = FF.add a b := rfl

theorem FF.hsub_def (a b : FF) : a - b = FF.sub a b := rfl

theorem FF.hmul_def (a b : FF) : a * b = FF.mul a b := rfl

/-! ### Claim theorems -/

/-- Object A of the spec's repulsion scenario: index 0 at `(0,0,0)`,
strength `-100`. -/
def scenarioA : Object :=
  { i := 0, x := FF.fin 0, y := FF.fin 0, z := FF.fin 0, strength := FF.fin (-100) }

/-- Object B of the spec's repulsion scenario: index 1 at `(100,0,0)`,
strength `-100`. -/
def scenarioB : Object :=
  { i := 1, x := FF.fin 100, y := FF.fin 0, z := FF.fin 0, strength := FF.fin (-100) }

/-- C1: with A at `(0,0,0)` and B at `(100,0,0)`, both of strength `-100`,
alpha `1.0` and no dragging id, one tick (whose repulsion pass processes
index 0 then index 1, and whose spring pass is empty) first sets
`A.x = -1.0`, and the `i = 1` step then reads A's already-updated `x`:
`dx = 101`, so `B.x = 100 + 10100/10201 = 10200/101 ≈ 100.9901`; the `y` and
`z` coordinates of both objects stay `0`.  The final conjunct records that
this differs from the snapshot (Jacobi) result `B.x = 101`, demonstrating the
sequential (Gauss–Seidel) coupling. -/
theorem tick_sequential_repulsion_scenario :
    (Physics.tick { objs := [scenarioA, scenarioB], alpha := FF.fin 1 }
        none [] []).objs
      = [{ scenarioA with x := FF.fin (-1) },
         { scenarioB with x := FF.fin (10200 / 101) }]
    ∧ (100.99 : ℚ) < 10200 / 101 ∧ (10200 / 101 : ℚ) < 100.9902
    ∧ (10200 / 101 : ℚ) ≠ 101 := by
  norm_num [Physics.tick, repulsionPhase, springPhase, repStep,
    show List.range 2 = [0, 1] from rfl, List.foldl, List.getD, scenarioA, scenarioB,
    FF.fin_add, FF.fin_sub, FF.fin_mul, FF.fin_isNan, FF.fin_le, FF.div, FF.isNan,
    USIZE_MAX, DEFAULT_MAX_DIST, DEFAULT_MIN_DIST, U32_MOD]

/-- C2 (code bug evidence): two distinct objects at the identical position
`(0,0,0)` are *not* skipped by the `dist >= MAX_DIST || dist.is_nan()` guard
(`dist = 0` passes it), so the first evaluated pair computes
`force = strength * (alpha/0) = -inf` and `force_x = (-inf) * 0 = NaN`,
writing NaN into all three coordinates of object 0 — contradicting the
claim that the `dist == 0` case is skipped and no NaN is stored.  Object 1
is then left unchanged only because its recomputed distance is NaN. -/
theorem tick_coincident_pair_writes_nan :
    (Physics.tick
        { objs := [scenarioA, { scenarioB with x := FF.fin 0 }], alpha := FF.fin 1 }
        none [] []).objs
      = [{ scenarioA with x := FF.nan, y := FF.nan, z := FF.nan },
         { scenarioB with x := FF.fin 0 }] := by
  norm_num [Physics.tick, repulsionPhase, springPhase, repStep,
    show List.range 2 = [0, 1] from rfl, List.foldl, List.getD, scenarioA, scenarioB,
    FF.hadd_def, FF.hsub_def, FF.hmul_def, FF.le, FF.div, FF.isNan,
    FF.mul, FF.sub, FF.add, FF.neg,
    USIZE_MAX, DEFAULT_MAX_DIST, DEFAULT_MIN_DIST, U32_MOD]

/-- C7: `tick` overwrites `alpha` with `1.0` before either force loop runs,
so the result is independent of the incoming `alpha` (every force term that
multiplies by alpha uses exactly `1.0`), and after every tick the stored
alpha equals `1.0`. -/
theorem tick_alpha_pinned (p : Physics) (dragging : Option ℕ)
    (edges : List Edge) (edgeMap : List (ℕ × List ℕ)) :
    (p.tick dragging edges edgeMap).alpha = FF.fin 1
      ∧ ∀ a : FF,
          Physics.tick { objs := p.objs, alpha := a } dragging edges edgeMap
            = p.tick dragging edges edgeMap := by
  exact ⟨rfl, fun a => rfl⟩

/-! ### Phase-level preservation lemmas -/

theorem repulsionPhase_getD_drag (alpha : FF) (drag : ℕ) (objs : List Object) :
    (repulsionPhase alpha drag objs).getD drag default
      = objs.getD drag default := by
  dsimp only [repulsionPhase]
  refine foldl_preserves
    (P := fun (acc : List Object) => acc.getD drag default = objs.getD drag default) ?_ _ _ rfl
  intro acc i hacc
  split
  · exact hacc
  · rename_i hne
    refine foldl_preserves
      (P := fun (acc2 : List Object) => acc2.getD drag default = objs.getD drag default) ?_ _ _ hacc
    intro acc2 j h2
    rw [repStep_getD_ne alpha i j drag acc2 hne]
    exact h2

theorem springPhase_getD_drag (drag : ℕ) (edges : List Edge)
    (edgeMap : List (ℕ × List ℕ)) (objs : List Object) :
    (springPhase drag edges edgeMap objs).getD (drag % U32_MOD) default
      = objs.getD (drag % U32_MOD) default := by
  dsimp only [springPhase]
  refine foldl_preserves
    (P := fun (acc : List Object) => acc.getD (drag % U32_MOD) default
      = objs.getD (drag % U32_MOD) default) ?_ _ _ rfl
  intro acc e hacc
  split
  · exact hacc
  · rename_i hne
    refine foldl_preserves
      (P := fun (acc2 : List Object) => acc2.getD (drag % U32_MOD) default
        = objs.getD (drag % U32_MOD) default) ?_ _ _ hacc
    intro acc2 oid h2
    rw [springStep_getD_ne edges e.1 acc2 oid (drag % U32_MOD) hne]
    exact h2

theorem repulsionPhase_frame (alpha : FF) (drag : ℕ) (objs : List Object) :
    (repulsionPhase alpha drag objs).length = objs.length
      ∧ ∀ k, ((repulsionPhase alpha drag objs).getD k default).i
              = (objs.getD k default).i
          ∧ ((repulsionPhase alpha drag objs).getD k default).strength
              = (objs.getD k default).strength := by
  dsimp only [repulsionPhase]
  refine foldl_preserves
    (P := fun (acc : List Object) => acc.length = objs.length
      ∧ ∀ k, (acc.getD k default).i = (objs.getD k default).i
          ∧ (acc.getD k default).strength = (objs.getD k default).strength)
    ?_ _ _ ⟨rfl, fun _ => ⟨rfl, rfl⟩⟩
  intro acc i hacc
  split
  · exact hacc
  · refine foldl_preserves
      (P := fun (acc2 : List Object) => acc2.length = objs.length
        ∧ ∀ k, (acc2.getD k default).i = (objs.getD k default).i
            ∧ (acc2.getD k default).strength = (objs.getD k default).strength)
      ?_ _ _ hacc
    intro acc2 j h2
    refine ⟨(repStep_length alpha i j acc2).trans h2.1, fun k => ?_⟩
    have hf := repStep_keeps_id_strength alpha i j k acc2
    exact ⟨hf.1.trans (h2.2 k).1, hf.2.trans (h2.2 k).2⟩

theorem springPhase_frame (drag : ℕ) (edges : List Edge)
    (edgeMap : List (ℕ × List ℕ)) (objs : List Object) :
    (springPhase drag edges edgeMap objs).length = objs.length
      ∧ ∀ k, ((springPhase drag edges edgeMap objs).getD k default).i
              = (objs.getD k default).i
          ∧ ((springPhase drag edges edgeMap objs).getD k default).strength
              = (objs.getD k default).strength := by
  dsimp only [springPhase]
  refine foldl_preserves
    (P := fun (acc : List Object) => acc.length = objs.length
      ∧ ∀ k, (acc.getD k default).i = (objs.getD k default).i
          ∧ (acc.getD k default).strength = (objs.getD k default).strength)
    ?_ _ _ ⟨rfl, fun _ => ⟨rfl, rfl⟩⟩
  intro acc e hacc
  split
  · exact hacc
  · refine foldl_preserves
      (P := fun (acc2 : List Object) => acc2.length = objs.length
        ∧ ∀ k, (acc2.getD k default).i = (objs.getD k default).i
            ∧ (acc2.getD k default).strength = (objs.getD k default).strength)
      ?_ _ _ hacc
    intro acc2 oid h2
    refine ⟨(springStep_length edges e.1 acc2 oid).trans h2.1, fun k => ?_⟩
    have hf := springStep_keeps_id_strength edges e.1 acc2 oid k
    exact ⟨hf.1.trans (h2.2 k).1, hf.2.trans (h2.2 k).2⟩

/-- C4: if node `k` is the dragging id (a `u32`, hence `k < 2^32`), a tick
leaves object `k` untouched — `k` is skipped as the outer repulsion index and
as the key node of the spring loop — while `k` still occurs as the inner
index `j`: in the concrete two-object instance (A dragged at the origin,
B at `(100,0,0)`), B is still repelled by A's current position
(`B.x` becomes `101 ≠ 100`) although A itself does not move. -/
theorem tick_drag_exclusion :
    (∀ (p : Physics) (k : ℕ) (edges : List Edge) (edgeMap : List (ℕ × List ℕ)),
        k < U32_MOD →
        (p.tick (some k) edges edgeMap).objs.getD k default
          = p.objs.getD k default)
    ∧ (Physics.tick { objs := [scenarioA, scenarioB], alpha := FF.fin 1 }
          (some 0) [] []).objs
        = [scenarioA, { scenarioB with x := FF.fin 101 }]
    ∧ FF.fin (101 : ℚ) ≠ scenarioB.x := by
  refine ⟨?_, ?_, ?_⟩
  · intro p k edges edgeMap hk
    dsimp only [Physics.tick, Option.getD]
    have h1 := springPhase_getD_drag k edges edgeMap
      (repulsionPhase (FF.fin 1) k p.objs)
    rw [Nat.mod_eq_of_lt hk] at h1
    rw [h1, repulsionPhase_getD_drag]
  · norm_num [Physics.tick, repulsionPhase, springPhase, repStep,
      show List.range 2 = [0, 1] from rfl, List.foldl, List.getD,
      scenarioA, scenarioB,
      FF.fin_add, FF.fin_sub, FF.fin_mul, FF.fin_isNan, FF.fin_le, FF.div,
      FF.isNan, USIZE_MAX, DEFAULT_MAX_DIST, DEFAULT_MIN_DIST, U32_MOD]
  · simp [scenarioB]

/-- Witness for C4: instantiating the universal part at the two-object state
with `k = 1` dragged. -/
theorem tick_drag_exclusion_witness :
    (Physics.tick { objs := [scenarioA, scenarioB], alpha := FF.fin 1 }
        (some 1) [] []).objs.getD 1 default
      = ({ objs := [scenarioA, scenarioB], alpha := FF.fin 1 } :
          Physics).objs.getD 1 default :=
  tick_drag_exclusion.1 _ 1 [] [] (by norm_num [U32_MOD])

/-- C10 (implicit frame property of `tick`): a tick never changes the number
of objects, never modifies any object's `i` or `strength` field, and leaves
the dragged object (whose index, a `u32`, is below `2^32`) entirely
unchanged; the only writes are the `x`,`y`,`z` coordinates of objects whose
index differs from the dragging id. -/
theorem tick_frame (p : Physics) (dragging : Option ℕ) (edges : List Edge)
    (edgeMap : List (ℕ × List ℕ)) :
    (p.tick dragging edges edgeMap).objs.length = p.objs.length
    ∧ (∀ k, ((p.tick dragging edges edgeMap).objs.getD k default).i
            = (p.objs.getD k default).i
        ∧ ((p.tick dragging edges edgeMap).objs.getD k default).strength
            = (p.objs.getD k default).strength)
    ∧ (∀ k, dragging = some k → k < U32_MOD →
        (p.tick dragging edges edgeMap).objs.getD k default
          = p.objs.getD k default) := by
  refine ⟨?_, ?_, ?_⟩
  · dsimp only [Physics.tick]
    rw [(springPhase_frame _ _ _ _).1, (repulsionPhase_frame _ _ _).1]
  · intro k
    dsimp only [Physics.tick]
    have hs := (springPhase_frame (dragging.getD USIZE_MAX) edges edgeMap
      (repulsionPhase (FF.fin 1) (dragging.getD USIZE_MAX) p.objs)).2 k
    have hr := (repulsionPhase_frame (FF.fin 1) (dragging.getD USIZE_MAX)
      p.objs).2 k
    exact ⟨hs.1.trans hr.1, hs.2.trans hr.2⟩
  · intro k hd hk
    subst hd
    dsimp only [Physics.tick, Option.getD]
    have h1 := springPhase_getD_drag k edges edgeMap
      (repulsionPhase (FF.fin 1) k p.objs)
    rw [Nat.mod_eq_of_lt hk] at h1
    rw [h1, repulsionPhase_getD_drag]

/-- Witness for C10: instantiating it at a one-object state with the object
dragged. -/
theorem tick_frame_witness :
    (Physics.tick { objs := [scenarioA], alpha := FF.fin 1 }
        (some 0) [] []).objs.getD 0 default
      = ({ objs := [scenarioA], alpha := FF.fin 1 } : Physics).objs.getD 0 default :=
  (tick_frame { objs := [scenarioA], alpha := FF.fin 1 } (some 0) [] []).2.2 0
    rfl (by norm_num [U32_MOD])

/-- The squared separation of two objects, as computed inside both force
loops (`dx*dx + dy*dy + dz*dz`). -/
def pairDistSq (a b : Object) : FF :=
  (a.x - b.x) * (a.x - b.x) + (a.y - b.y) * (a.y - b.y)
    + (a.z - b.z) * (a.z - b.z)

theorem repStep_skip_far (alpha : FF) (i j : ℕ) (objs : List Object)
    (h : FF.le (FF.fin (DEFAULT_MAX_DIST * DEFAULT_MAX_DIST))
        (pairDistSq (objs.getD i default) (objs.getD j default)) = true) :
    repStep alpha i j objs = objs := by
  dsimp only [pairDistSq] at h
  dsimp only [repStep]
  split
  · rfl
  · simp only [h, Bool.true_or]
    exact if_pos trivial

theorem repStep_skip_same_id (alpha : FF) (i j : ℕ) (objs : List Object)
    (h : (objs.getD i default).i = (objs.getD j default).i) :
    repStep alpha i j objs = objs := by
  dsimp only [repStep]
  rw [if_pos h]

/-- C5: an evaluated repulsion pair whose distance is at or beyond
`DEFAULT_MAX_DIST` (equivalently, whose squared distance is at or beyond its
square) contributes exactly zero displacement — `repStep` returns the store
unchanged; consequently two nodes separated by at least `DEFAULT_MAX_DIST`
receive zero repulsive displacement from a whole tick (with no edges). -/
theorem repulsion_cutoff :
    (∀ (alpha : FF) (i j : ℕ) (objs : List Object),
        FF.le (FF.fin (DEFAULT_MAX_DIST * DEFAULT_MAX_DIST))
            (pairDistSq (objs.getD i default) (objs.getD j default)) = true →
        repStep alpha i j objs = objs)
    ∧ (∀ a1 a2 a3 b1 b2 b3 sA sB : ℚ,
        DEFAULT_MAX_DIST * DEFAULT_MAX_DIST
            ≤ (a1 - b1) * (a1 - b1) + (a2 - b2) * (a2 - b2)
                + (a3 - b3) * (a3 - b3) →
        (Physics.tick
            { objs := [⟨0, FF.fin a1, FF.fin a2, FF.fin a3, FF.fin sA⟩,
                       ⟨1, FF.fin b1, FF.fin b2, FF.fin b3, FF.fin sB⟩],
              alpha := FF.fin 1 } none [] []).objs
          = [⟨0, FF.fin a1, FF.fin a2, FF.fin a3, FF.fin sA⟩,
             ⟨1, FF.fin b1, FF.fin b2, FF.fin b3, FF.fin sB⟩]) := by
  constructor
  · exact repStep_skip_far
  · intro a1 a2 a3 b1 b2 b3 sA sB h
    have h2 : DEFAULT_MAX_DIST * DEFAULT_MAX_DIST
        ≤ (b1 - a1) * (b1 - a1) + (b2 - a2) * (b2 - a2)
            + (b3 - a3) * (b3 - a3) := by nlinarith [h]
    set A : Object := ⟨0, FF.fin a1, FF.fin a2, FF.fin a3, FF.fin sA⟩ with hA
    set B : Object := ⟨1, FF.fin b1, FF.fin b2, FF.fin b3, FF.fin sB⟩ with hB
    have e1 : repStep (FF.fin 1) 0 0 [A, B] = [A, B] :=
      repStep_skip_same_id _ _ _ _ rfl
    have e4 : repStep (FF.fin 1) 1 1 [A, B] = [A, B] :=
      repStep_skip_same_id _ _ _ _ rfl
    have e2 : repStep (FF.fin 1) 0 1 [A, B] = [A, B] := by
      refine repStep_skip_far _ _ _ _ ?_
      show FF.le _ (pairDistSq A B) = true
      have hd : pairDistSq A B
          = FF.fin ((a1 - b1) * (a1 - b1) + (a2 - b2) * (a2 - b2)
              + (a3 - b3) * (a3 - b3)) := by
        dsimp only [pairDistSq, hA, hB]
        rw [FF.fin_sub, FF.fin_sub, FF.fin_sub, FF.fin_mul, FF.fin_mul,
          FF.fin_mul, FF.fin_add, FF.fin_add]
      rw [hd, FF.fin_le]
      exact decide_eq_true h
    have e3 : repStep (FF.fin 1) 1 0 [A, B] = [A, B] := by
      refine repStep_skip_far _ _ _ _ ?_
      show FF.le _ (pairDistSq B A) = true
      have hd : pairDistSq B A
          = FF.fin ((b1 - a1) * (b1 - a1) + (b2 - a2) * (b2 - a2)
              + (b3 - a3) * (b3 - a3)) := by
        dsimp only [pairDistSq, hA, hB]
        rw [FF.fin_sub, FF.fin_sub, FF.fin_sub, FF.fin_mul, FF.fin_mul,
          FF.fin_mul, FF.fin_add, FF.fin_add]
      rw [hd, FF.fin_le]
      exact decide_eq_true h2
    dsimp only [Physics.tick, Option.getD]
    have hrep : repulsionPhase (FF.fin 1) USIZE_MAX [A, B] = [A, B] := by
      dsimp only [repulsionPhase]
      rw [show ([A, B] : List Object).length = 2 from rfl]
      rw [show (List.range 2 : List ℕ) = [0, 1] from rfl]
      dsimp only [List.foldl]
      rw [if_neg (by decide : ¬(0 : ℕ) = USIZE_MAX),
        if_neg (by decide : ¬(1 : ℕ) = USIZE_MAX)]
      rw [e1, e2, e3, e4]
    rw [hrep]
    rfl

/-- Witness for C5: two objects exactly `DEFAULT_MAX_DIST` apart are left
unchanged by a tick. -/
theorem repulsion_cutoff_witness :
    (Physics.tick
        { objs := [⟨0, FF.fin 0, FF.fin 0, FF.fin 0, FF.fin (-100)⟩,
                   ⟨1, FF.fin 500, FF.fin 0, FF.fin 0, FF.fin (-100)⟩],
          alpha := FF.fin 1 } none [] []).objs
      = [⟨0, FF.fin 0, FF.fin 0, FF.fin 0, FF.fin (-100)⟩,
         ⟨1, FF.fin 500, FF.fin 0, FF.fin 0, FF.fin (-100)⟩] :=
  repulsion_cutoff.2 0 0 0 500 0 0 (-100) (-100)
    (by norm_num [DEFAULT_MAX_DIST])

theorem FF.le_left_not_nan (a b : FF) (h : FF.le a b = true) :
    a.isNan = false := by
  cases a
  · rfl
  · rfl
  · rfl
  · simp [FF.le] at h

theorem springStep_skip_close (edges : List Edge) (node : ℕ)
    (objs : List Object) (oid : ℕ)
    (h : FF.le
        (pairDistSq (objs.getD node default)
          (if node = (edges.getD oid default).a_id
            then objs.getD (edges.getD oid default).b_id default
            else objs.getD (edges.getD oid default).a_id default))
        (FF.fin (DEFAULT_MIN_DIST * DEFAULT_MIN_DIST)) = true) :
    springStep edges node objs oid = objs := by
  have hnn := FF.le_left_not_nan _ _ h
  dsimp only [pairDistSq] at h hnn
  dsimp only [springStep]
  rw [if_neg (by rw [hnn]; exact Bool.false_ne_true), if_pos h]

/-- The concrete edge of the spring scenario: it connects nodes `0` and `1`.
-/
def springEdge : Edge :=
  { a_id := 0, b_id := 1, a_center := default, b_center := default }

/-- C6: for two connected nodes (both of default strength `-100`) at
separation `1000 > DEFAULT_MIN_DIST` — A at the origin, B at `(1000,0,0)` —
one spring pass moves A to `x = 10` and then, reading A's updated position,
moves B to `x = 990.29701`; the new separation `980.29701` is positive and
its square is below `1000²`, so the separation strictly decreases.  And for
two connected nodes whose squared separation is at most
`DEFAULT_MIN_DIST²` (i.e. separation `≤ DEFAULT_MIN_DIST`), the spring pass
applies zero displacement to both nodes. -/
theorem spring_scenario_rest_length :
    (springPhase USIZE_MAX [springEdge] [(0, [0]), (1, [0])]
        [⟨0, FF.fin 0, FF.fin 0, FF.fin 0, FF.fin (-100)⟩,
         ⟨1, FF.fin 1000, FF.fin 0, FF.fin 0, FF.fin (-100)⟩]
      = [⟨0, FF.fin 10, FF.fin 0, FF.fin 0, FF.fin (-100)⟩,
         ⟨1, FF.fin (99029701 / 100000), FF.fin 0, FF.fin 0, FF.fin (-100)⟩])
    ∧ (0 : ℚ) < 99029701 / 100000 - 10
    ∧ ((99029701 / 100000 - 10 : ℚ) * (99029701 / 100000 - 10)
        < 1000 * 1000)
    ∧ (∀ a1 a2 a3 b1 b2 b3 : ℚ,
        (a1 - b1) * (a1 - b1) + (a2 - b2) * (a2 - b2)
            + (a3 - b3) * (a3 - b3)
          ≤ DEFAULT_MIN_DIST * DEFAULT_MIN_DIST →
        springPhase USIZE_MAX [springEdge] [(0, [0]), (1, [0])]
            [⟨0, FF.fin a1, FF.fin a2, FF.fin a3, FF.fin (-100)⟩,
             ⟨1, FF.fin b1, FF.fin b2, FF.fin b3, FF.fin (-100)⟩]
          = [⟨0, FF.fin a1, FF.fin a2, FF.fin a3, FF.fin (-100)⟩,
             ⟨1, FF.fin b1, FF.fin b2, FF.fin b3, FF.fin (-100)⟩]) := by
  refine ⟨?_, by norm_num, by norm_num, ?_⟩
  · norm_num [springPhase, springStep, List.foldl, List.getD, List.set,
      springEdge, FF.fin_add, FF.fin_sub, FF.fin_mul, FF.fin_isNan,
      FF.fin_le, FF.neg, USIZE_MAX, U32_MOD, DEFAULT_MIN_DIST]
  · intro a1 a2 a3 b1 b2 b3 h
    have h2 : (b1 - a1) * (b1 - a1) + (b2 - a2) * (b2 - a2)
        + (b3 - a3) * (b3 - a3)
          ≤ DEFAULT_MIN_DIST * DEFAULT_MIN_DIST := by nlinarith [h]
    set A : Object := ⟨0, FF.fin a1, FF.fin a2, FF.fin a3, FF.fin (-100)⟩
      with hA
    set B : Object := ⟨1, FF.fin b1, FF.fin b2, FF.fin b3, FF.fin (-100)⟩
      with hB
    have s1 : springStep [springEdge] 0 [A, B] 0 = [A, B] := by
      refine springStep_skip_close _ _ _ _ ?_
      show FF.le (pairDistSq A B) (FF.fin (DEFAULT_MIN_DIST * DEFAULT_MIN_DIST))
          = true
      have hd : pairDistSq A B
          = FF.fin ((a1 - b1) * (a1 - b1) + (a2 - b2) * (a2 - b2)
              + (a3 - b3) * (a3 - b3)) := by
        dsimp only [pairDistSq, hA, hB]
        rw [FF.fin_sub, FF.fin_sub, FF.fin_sub, FF.fin_mul, FF.fin_mul,
          FF.fin_mul, FF.fin_add, FF.fin_add]
      rw [hd, FF.fin_le]
      exact decide_eq_true h
    have s2 : springStep [springEdge] 1 [A, B] 0 = [A, B] := by
      refine springStep_skip_close _ _ _ _ ?_
      show FF.le (pairDistSq B A) (FF.fin (DEFAULT_MIN_DIST * DEFAULT_MIN_DIST))
          = true
      have hd : pairDistSq B A
          = FF.fin ((b1 - a1) * (b1 - a1) + (b2 - a2) * (b2 - a2)
              + (b3 - a3) * (b3 - a3)) := by
        dsimp only [pairDistSq, hA, hB]
        rw [FF.fin_sub, FF.fin_sub, FF.fin_sub, FF.fin_mul, FF.fin_mul,
          FF.fin_mul, FF.fin_add, FF.fin_add]
      rw [hd, FF.fin_le]
      exact decide_eq_true h2
    dsimp only [springPhase, List.foldl]
    rw [if_neg (by decide : ¬(0 : ℕ) = USIZE_MAX % U32_MOD),
      if_neg (by decide : ¬(1 : ℕ) = USIZE_MAX % U32_MOD)]
    rw [s1, s2]

/-- Witness for C6: two connected nodes exactly `DEFAULT_MIN_DIST` apart
receive zero spring displacement. -/
theorem spring_scenario_rest_length_witness :
    springPhase USIZE_MAX [springEdge] [(0, [0]), (1, [0])]
        [⟨0, FF.fin 0, FF.fin 0, FF.fin 0, FF.fin (-100)⟩,
         ⟨1, FF.fin 200, FF.fin 0, FF.fin 0, FF.fin (-100)⟩]
      = [⟨0, FF.fin 0, FF.fin 0, FF.fin 0, FF.fin (-100)⟩,
         ⟨1, FF.fin 200, FF.fin 0, FF.fin 0, FF.fin (-100)⟩] :=
  spring_scenario_rest_length.2.2.2 0 0 0 200 0 0
    (by norm_num [DEFAULT_MIN_DIST])

/-- C8: `Physics::apply` requires `nodes.len() == objs.len()`; on a mismatch
the `assert_eq!` fires before anything is written (modelled by `none`), and
when the lengths agree the function always produces a result (no other
failure mode). -/
theorem apply_precondition (p : Physics) (nodes : List Node)
    (edges : List Edge) (edgeMap : List (ℕ × List ℕ)) :
    (nodes.length ≠ p.objs.length →
        Physics.apply p nodes edges edgeMap = none)
    ∧ (nodes.length = p.objs.length →
        ∃ out, Physics.apply p nodes edges edgeMap = some out) := by
  constructor
  · intro h
    dsimp only [Physics.apply]
    rw [if_neg h]
  · intro h
    dsimp only [Physics.apply]
    rw [if_pos h]
    exact ⟨_, rfl⟩

/-- Witness for C8: a one-object store with an empty node list fails the
precondition, while a matching pair of lengths succeeds. -/
theorem apply_precondition_witness :
    Physics.apply { objs := [scenarioA], alpha := FF.fin 1 } [] [] [] = none
    ∧ ∃ out, Physics.apply { objs := [scenarioA], alpha := FF.fin 1 }
        [⟨(FF.fin 7, FF.fin 8, FF.fin 9)⟩] [] [] = some out :=
  ⟨(apply_precondition _ [] [] []).1 (by decide),
   (apply_precondition _ [⟨(FF.fin 7, FF.fin 8, FF.fin 9)⟩] [] []).2 (by decide)⟩

theorem getD_append_left (l1 l2 : List α) (k : ℕ) (d : α)
    (h : k < l1.length) : (l1 ++ l2).getD k d = l1.getD k d := by
  induction l1 generalizing k with
  | nil => simp at h
  | cons a t ih =>
      cases k with
      | zero => rfl
      | succ k =>
          simp only [List.cons_append, List.getD_cons_succ]
          exact ih k (by simpa using h)

theorem getD_append_length (l1 : List α) (v d : α) :
    (l1 ++ [v]).getD l1.length d = v := by
  induction l1 with
  | nil => rfl
  | cons a t ih =>
      simp only [List.cons_append, List.length_cons, List.getD_cons_succ]
      exact ih

theorem enumFrom_map_from_node_getD :
    ∀ (l : List Node) (m k : ℕ), k < l.length →
      ((List.enumFrom m l).map
          fun p => Object.from_node p.1 p.2 DEFAULT_STRENGTH).getD k default
        = Object.from_node (m + k) (l.getD k default) DEFAULT_STRENGTH := by
  intro l
  induction l with
  | nil => intro m k h; simp at h
  | cons a t ih =>
      intro m k h
      cases k with
      | zero => simp [List.enumFrom]
      | succ k =>
          simp only [List.enumFrom, List.map_cons, List.getD_cons_succ]
          rw [ih (m + 1) k (by simpa using h)]
          have h2 : m + 1 + k = m + (k + 1) := by omega
          rw [h2]

/-- The index-alignment invariant of the spec: the physics store and the node
collection have equal length and `objs[k].i = k` for every index. -/
def Aligned (s : State) : Prop :=
  s.physics.objs.length = s.nodes.length
    ∧ ∀ k, k < s.physics.objs.length → (s.physics.objs.getD k default).i = k

/-- C9: `Physics::new` establishes the index-alignment invariant, and
`State::add_node` preserves it; the object pushed by `add_node` has id equal
to the new length minus one. -/
theorem index_alignment :
    (∀ nodes : List Node,
        Aligned { physics := Physics.new nodes, nodes := nodes })
    ∧ (∀ (s : State) (node : Node), Aligned s →
        Aligned (s.add_node node)
        ∧ ((s.add_node node).physics.objs.getD s.nodes.length default).i
            = (s.add_node node).physics.objs.length - 1) := by
  constructor
  · intro nodes
    constructor
    · simp [Physics.new]
    · intro k hk
      simp only [Physics.new, List.length_map, List.enum_length] at hk
      dsimp only [Physics.new, List.enum]
      rw [enumFrom_map_from_node_getD nodes 0 k hk]
      simp [Object.from_node]
  · intro s node hs
    have hlen := hs.1
    have hnew : ((s.add_node node).physics.objs.getD s.nodes.length default).i
        = s.nodes.length := by
      dsimp only [State.add_node]
      rw [← hlen, getD_append_length]
      rfl
    refine ⟨⟨?_, ?_⟩, ?_⟩
    · simp [State.add_node, hlen]
    · intro k hk
      dsimp only [State.add_node] at hk ⊢
      rw [List.length_append, List.length_singleton] at hk
      rcases Nat.lt_succ_iff_lt_or_eq.mp hk with hk' | hk'
      · rw [getD_append_left _ _ _ _ hk']
        exact hs.2 k hk'
      · subst hk'
        rw [hlen]
        exact hnew
    · dsimp only [State.add_node]
      dsimp only [State.add_node] at hnew
      rw [hnew]
      simp [hlen]

/-- Witness for C9: adding a node to a freshly built one-node state keeps the
invariant. -/
theorem index_alignment_witness :
    Aligned (State.add_node
      { physics := Physics.new [⟨(FF.fin 1, FF.fin 2, FF.fin 3)⟩],
        nodes := [⟨(FF.fin 1, FF.fin 2, FF.fin 3)⟩] }
      ⟨(FF.fin 4, FF.fin 5, FF.fin 6)⟩) :=
  (index_alignment.2 _ _ (index_alignment.1 _)).1

/-! ### The sync pass (C3) -/

/-- The list of incident edge ids the sync/spring passes consult for key `k`
(`edge_map.get(&k)`, empty when absent). -/
def lookupList (edgeMap : List (ℕ × List ℕ)) (k : ℕ) : List ℕ :=
  (edgeMap.lookup k).getD []

/-- The coordinates of object `k` as a position triple. -/
def objCoords (objs : List Object) (k : ℕ) : FF × FF × FF :=
  ((objs.getD k default).x, (objs.getD k default).y, (objs.getD k default).z)

/-- The adjacency-index invariant of the spec (§3): every id listed under a
key is a valid edge index having that key as an endpoint, and every edge's id
is listed under both of its endpoints, which are valid node indices. -/
def WFAdj (n : ℕ) (edges : List Edge) (edgeMap : List (ℕ × List ℕ)) : Prop :=
  (∀ k, k < n → ∀ e ∈ lookupList edgeMap k,
      e < edges.length
        ∧ ((edges.getD e default).a_id = k ∨ (edges.getD e default).b_id = k))
  ∧ (∀ e, e < edges.length →
      (edges.getD e default).a_id < n
        ∧ (edges.getD e default).b_id < n
        ∧ e ∈ lookupList edgeMap (edges.getD e default).a_id
        ∧ e ∈ lookupList edgeMap (edges.getD e default).b_id)

theorem apply_edge_idem (o : Object) (id : ℕ) (n : Node) (x : Edge) :
    o.apply_edge id n (o.apply_edge id n x) = o.apply_edge id n x := by
  by_cases h1 : x.a_id = id <;> by_cases h2 : x.b_id = id <;>
    simp [Object.apply_edge, h1, h2]

theorem apply_edge_ids (o : Object) (id : ℕ) (n : Node) (x : Edge) :
    (o.apply_edge id n x).a_id = x.a_id
      ∧ (o.apply_edge id n x).b_id = x.b_id := by
  dsimp only [Object.apply_edge]
  split_ifs <;> exact ⟨rfl, rfl⟩

theorem edge_fold_length (f : Edge → Edge) (l : List ℕ) (es : List Edge) :
    (l.foldl (fun es2 eid => es2.set eid (f (es2.getD eid default))) es).length
      = es.length := by
  refine foldl_preserves (P := fun (es2 : List Edge) => es2.length = es.length)
    ?_ l es rfl
  intro a b ha
  rw [List.length_set]
  exact ha

theorem edge_fold_getD (f : Edge → Edge) (hf : ∀ x, f (f x) = f x) :
    ∀ (l : List ℕ) (es : List Edge) (e : ℕ), e < es.length →
      (l.foldl (fun es2 eid => es2.set eid (f (es2.getD eid default))) es).getD
          e default
        = if e ∈ l then f (es.getD e default) else es.getD e default := by
  intro l
  induction l with
  | nil =>
      intro es e _
      simp
  | cons a l ih =>
      intro es e he
      simp only [List.foldl]
      rw [ih (es.set a (f (es.getD a default))) e (by simpa using he)]
      rw [getD_set]
      by_cases hae : a = e
      · subst hae
        rw [if_pos (show a = a ∧ a < es.length from ⟨rfl, he⟩)]
        rw [if_pos (List.mem_cons_self a l)]
        by_cases hel : a ∈ l
        · rw [if_pos hel]
          exact hf _
        · rw [if_neg hel]
      · rw [if_neg (show ¬(a = e ∧ a < es.length) from fun hc => hae hc.1)]
        by_cases hel : e ∈ l
        · rw [if_pos hel, if_pos (List.mem_cons_of_mem a hel)]
        · rw [if_neg hel,
            if_neg (show e ∉ a :: l from fun hc => by
              rcases List.mem_cons.mp hc with h1 | h2
              · exact hae h1.symm
              · exact hel h2)]

theorem drop_getD_zero : ∀ (l : List α) (m : ℕ) (d : α),
    (l.drop m).getD 0 d = l.getD m d := by
  intro l
  induction l with
  | nil => intro m d; cases m <;> rfl
  | cons a t ih =>
      intro m d
      cases m with
      | zero => rfl
      | succ m => exact ih m d

theorem drop_succ_eq_tail_drop : ∀ (l : List α) (m : ℕ),
    l.drop (m + 1) = (l.drop m).tail := by
  intro l
  induction l with
  | nil => intro m; cases m <;> rfl
  | cons a t ih =>
      intro m
      cases m with
      | zero => rfl
      | succ m => exact ih m

/-- Loop invariant of `Physics::apply` after the first `m` objects have been
processed: node positions below `m` are synced, nodes from `m` on are
untouched, edge ids are preserved, and each cached center is refreshed
exactly when its endpoint id has been processed (for `b_center`, only on
non-self-loop edges, since `apply_edge` checks `a_id` first). -/
def SyncInv (objs0 : List Object) (nodes0 : List Node) (edges0 : List Edge)
    (m : ℕ) (st : List Node × List Edge) : Prop :=
  st.1.length = nodes0.length
  ∧ st.2.length = edges0.length
  ∧ (∀ i, i < m →
      st.1.getD i default
        = Object.apply (objs0.getD i default) (nodes0.getD i default))
  ∧ (∀ i, m ≤ i → st.1.getD i default = nodes0.getD i default)
  ∧ (∀ e, e < edges0.length →
      (st.2.getD e default).a_id = (edges0.getD e default).a_id
      ∧ (st.2.getD e default).b_id = (edges0.getD e default).b_id
      ∧ ((edges0.getD e default).a_id < m →
          (st.2.getD e default).a_center
            = objCoords objs0 (edges0.getD e default).a_id)
      ∧ (m ≤ (edges0.getD e default).a_id →
          (st.2.getD e default).a_center = (edges0.getD e default).a_center)
      ∧ ((edges0.getD e default).b_id < m
          ∧ (edges0.getD e default).a_id ≠ (edges0.getD e default).b_id →
          (st.2.getD e default).b_center
            = objCoords objs0 (edges0.getD e default).b_id)
      ∧ (¬((edges0.getD e default).b_id < m
          ∧ (edges0.getD e default).a_id ≠ (edges0.getD e default).b_id) →
          (st.2.getD e default).b_center = (edges0.getD e default).b_center))

theorem syncStep_eq (edgeMap : List (ℕ × List ℕ))
    (st : List Node × List Edge) (io : ℕ × Object) :
    syncStep edgeMap st io
      = (st.1.set io.1 (io.2.apply (st.1.getD io.1 default)),
          (lookupList edgeMap io.1).foldl
            (fun es eid =>
              es.set eid
                (io.2.apply_edge io.1 (io.2.apply (st.1.getD io.1 default))
                  (es.getD eid default)))
            st.2) := by
  dsimp only [syncStep, lookupList]
  cases edgeMap.lookup io.1 <;> rfl

theorem syncStep_inv (objs0 : List Object) (nodes0 : List Node)
    (edges0 : List Edge) (edgeMap : List (ℕ × List ℕ)) (m : ℕ)
    (st : List Node × List Edge)
    (hm : m < objs0.length)
    (hlen : nodes0.length = objs0.length)
    (hwf : WFAdj objs0.length edges0 edgeMap)
    (hinv : SyncInv objs0 nodes0 edges0 m st) :
    SyncInv objs0 nodes0 edges0 (m + 1)
      (syncStep edgeMap st (m, objs0.getD m default)) := by
  obtain ⟨hn, he, hlt, hge, hedge⟩ := hinv
  rw [syncStep_eq]
  dsimp only
  set obj := objs0.getD m default with hobj
  set node := obj.apply (st.1.getD m default) with hnode
  have hnodepos : node.position = objCoords objs0 m := rfl
  refine ⟨?_, ?_, ?_, ?_, ?_⟩
  · rw [List.length_set]
    exact hn
  · rw [edge_fold_length]
    exact he
  · intro i hi
    rw [getD_set]
    by_cases him : m = i
    · subst him
      rw [if_pos ⟨rfl, by rw [hn, hlen]; exact hm⟩]
      rw [hnode, hge m le_rfl]
    · rw [if_neg (fun hc => him hc.1)]
      exact hlt i (by omega)
  · intro i hi
    rw [getD_set]
    rw [if_neg (fun hc => by obtain ⟨h1, -⟩ := hc; omega)]
    exact hge i (by omega)
  · intro e hee
    have hlen2 : e < st.2.length := by rw [he]; exact hee
    have hfold := edge_fold_getD (obj.apply_edge m node)
      (apply_edge_idem obj m node) (lookupList edgeMap m) st.2 e hlen2
    rw [hfold]
    obtain ⟨hid1, hid2, hac1, hac2, hbc1, hbc2⟩ := hedge e hee
    by_cases hin : e ∈ lookupList edgeMap m
    · rw [if_pos hin]
      obtain ⟨-, hab⟩ := hwf.1 m hm e hin
      by_cases haidm : (edges0.getD e default).a_id = m
      · have hxa : (st.2.getD e default).a_id = m := by rw [hid1, haidm]
        have hfx : obj.apply_edge m node (st.2.getD e default)
            = { st.2.getD e default with a_center := node.position } := by
          dsimp only [Object.apply_edge]
          rw [if_pos hxa]
        rw [hfx]
        refine ⟨hid1, hid2, ?_, ?_, ?_, ?_⟩
        · intro _
          rw [haidm]
          exact hnodepos
        · intro hcon
          rw [haidm] at hcon
          omega
        · rintro ⟨hblt, hne⟩
          refine hbc1 ⟨?_, hne⟩
          have : (edges0.getD e default).b_id ≠ m := fun hbm => by
            rw [haidm, hbm] at hne
            exact hne rfl
          omega
        · intro hcon
          refine hbc2 (fun hc => hcon ⟨by omega, hc.2⟩)
      · have hbidm : (edges0.getD e default).b_id = m := hab.resolve_left haidm
        have hxa : ¬(st.2.getD e default).a_id = m := by
          rw [hid1]
          exact haidm
        have hxb : (st.2.getD e default).b_id = m := by rw [hid2, hbidm]
        have hfx : obj.apply_edge m node (st.2.getD e default)
            = { st.2.getD e default with b_center := node.position } := by
          dsimp only [Object.apply_edge]
          rw [if_neg hxa, if_pos hxb]
        rw [hfx]
        refine ⟨hid1, hid2, ?_, ?_, ?_, ?_⟩
        · intro halt
          refine hac1 ?_
          have : (edges0.getD e default).a_id ≠ m := haidm
          omega
        · intro hge2
          exact hac2 (by omega)
        · rintro ⟨hblt, hne⟩
          rw [hbidm]
          exact hnodepos
        · intro hcon
          exfalso
          refine hcon ⟨by rw [hbidm]; omega, ?_⟩
          rw [hbidm]
          exact haidm
    · rw [if_neg hin]
      refine ⟨hid1, hid2, ?_, ?_, ?_, ?_⟩
      · intro halt
        by_cases haidm : (edges0.getD e default).a_id = m
        · exfalso
          apply hin
          rw [← haidm]
          exact (hwf.2 e hee).2.2.1
        · exact hac1 (by omega)
      · intro hge2
        exact hac2 (by omega)
      · rintro ⟨hblt, hne⟩
        by_cases hbidm : (edges0.getD e default).b_id = m
        · exfalso
          apply hin
          rw [← hbidm]
          exact (hwf.2 e hee).2.2.2
        · exact hbc1 ⟨by omega, hne⟩
      · intro hcon
        exact hbc2 (fun hc => hcon ⟨by omega, hc.2⟩)

theorem sync_foldl_inv (objs0 : List Object) (nodes0 : List Node)
    (edges0 : List Edge) (edgeMap : List (ℕ × List ℕ))
    (hlen : nodes0.length = objs0.length)
    (hwf : WFAdj objs0.length edges0 edgeMap) :
    ∀ (l : List Object) (m : ℕ) (st : List Node × List Edge),
      objs0.drop m = l →
      SyncInv objs0 nodes0 edges0 m st →
      SyncInv objs0 nodes0 edges0 (m + l.length)
        ((List.enumFrom m l).foldl (syncStep edgeMap) st) := by
  intro l
  induction l with
  | nil =>
      intro m st _ hinv
      simpa using hinv
  | cons a t ih =>
      intro m st hdrop hinv
      have hm : m < objs0.length := by
        have hlen2 := congrArg List.length hdrop
        rw [List.length_drop] at hlen2
        simp only [List.length_cons] at hlen2
        omega
      have ha : objs0.getD m default = a := by
        rw [← drop_getD_zero objs0 m default, hdrop]
        rfl
      have hdrop2 : objs0.drop (m + 1) = t := by
        rw [drop_succ_eq_tail_drop, hdrop]
        rfl
      have hstep := syncStep_inv objs0 nodes0 edges0 edgeMap m st hm hlen hwf hinv
      rw [ha] at hstep
      have hrest := ih (m + 1) (syncStep edgeMap st (m, a)) hdrop2 hstep
      simp only [List.enumFrom, List.foldl, List.length_cons]
      rw [show m + (t.length + 1) = m + 1 + t.length from by omega]
      exact hrest

/-- C3 (amended): under the length precondition and the adjacency-index
invariant, `Physics::apply` succeeds and afterwards every node's position
equals its object's coordinates exactly; every edge keeps its ids, its
`a_center` equals the position of node `a_id`, and its `b_center` equals the
position of node `b_id` *provided* `a_id ≠ b_id` — for a self-loop
(`a_id = b_id`) only `a_center` is refreshed (`apply_edge` tests `a_id`
first) and `b_center` keeps its previous value. -/
theorem apply_sync (p : Physics) (nodes : List Node) (edges : List Edge)
    (edgeMap : List (ℕ × List ℕ))
    (hlen : nodes.length = p.objs.length)
    (hwf : WFAdj p.objs.length edges edgeMap) :
    ∃ ns es, Physics.apply p nodes edges edgeMap = some (ns, es)
      ∧ ns.length = nodes.length
      ∧ es.length = edges.length
      ∧ (∀ i, i < p.objs.length →
          (ns.getD i default).position = objCoords p.objs i)
      ∧ (∀ e, e < edges.length →
          (es.getD e default).a_id = (edges.getD e default).a_id
          ∧ (es.getD e default).b_id = (edges.getD e default).b_id
          ∧ (es.getD e default).a_center
              = objCoords p.objs (edges.getD e default).a_id
          ∧ ((edges.getD e default).a_id ≠ (edges.getD e default).b_id →
              (es.getD e default).b_center
                = objCoords p.objs (edges.getD e default).b_id)
          ∧ ((edges.getD e default).a_id = (edges.getD e default).b_id →
              (es.getD e default).b_center
                = (edges.getD e default).b_center)) := by
  have base : SyncInv p.objs nodes edges 0 (nodes, edges) := by
    refine ⟨rfl, rfl, ?_, ?_, ?_⟩
    · intro i hi
      omega
    · intro i _
      rfl
    · intro e _
      refine ⟨rfl, rfl, ?_, fun _ => rfl, ?_, fun _ => rfl⟩
      · intro h
        omega
      · rintro ⟨h, -⟩
        omega
  have hfold := sync_foldl_inv p.objs nodes edges edgeMap hlen hwf p.objs 0
    (nodes, edges) rfl base
  obtain ⟨hn, he, hlt, -, hedge⟩ := hfold
  simp only [Nat.zero_add] at hlt hedge
  refine ⟨_, _, ?_, hn, he, ?_, ?_⟩
  · dsimp only [Physics.apply, List.enum]
    rw [if_pos hlen, Prod.mk.eta]
  · intro i hi
    rw [hlt i hi]
    rfl
  · intro e hee
    obtain ⟨h1, h2, h3, h4, h5, h6⟩ := hedge e hee
    refine ⟨h1, h2, h3 (hwf.2 e hee).1, ?_, ?_⟩
    · intro hne
      exact h5 ⟨(hwf.2 e hee).2.1, hne⟩
    · intro heq
      exact h6 (fun hc => hc.2 heq)

/-- C3 counterexample: a well-formed self-loop edge (`a_id = b_id = 0`, with
adjacency entry `[0, 0]` exactly as `EdgeRenderPass::new` builds it) refutes
the claim that after `apply` every edge's `b_center` equals the position of
node `b_id`: the object sits at `(5,6,7)`, yet `b_center` stays at its stale
value `(9,9,9)` because `apply_edge` matches `a_id` first on both visits. -/
theorem apply_selfloop_stale_b_center :
    Physics.apply
        { objs := [⟨0, FF.fin 5, FF.fin 6, FF.fin 7, FF.fin (-100)⟩],
          alpha := FF.fin 1 }
        [⟨(FF.fin 0, FF.fin 0, FF.fin 0)⟩]
        [{ a_id := 0, b_id := 0, a_center := (FF.fin 9, FF.fin 9, FF.fin 9),
           b_center := (FF.fin 9, FF.fin 9, FF.fin 9) }]
        [(0, [0, 0])]
      = some ([⟨(FF.fin 5, FF.fin 6, FF.fin 7)⟩],
          [{ a_id := 0, b_id := 0, a_center := (FF.fin 5, FF.fin 6, FF.fin 7),
             b_center := (FF.fin 9, FF.fin 9, FF.fin 9) }])
    ∧ ((FF.fin 9, FF.fin 9, FF.fin 9) : FF × FF × FF)
        ≠ (FF.fin 5, FF.fin 6, FF.fin 7) := by
  decide

/-- Witness for the amended C3: a two-node, one-edge instance satisfying the
length precondition and the adjacency invariant. -/
theorem apply_sync_witness :
    ∃ ns es,
      Physics.apply
          { objs := [⟨0, FF.fin 1, FF.fin 2, FF.fin 3, FF.fin (-100)⟩,
                     ⟨1, FF.fin 4, FF.fin 5, FF.fin 6, FF.fin (-100)⟩],
            alpha := FF.fin 1 }
          [⟨(FF.fin 0, FF.fin 0, FF.fin 0)⟩, ⟨(FF.fin 0, FF.fin 0, FF.fin 0)⟩]
          [{ a_id := 0, b_id := 1, a_center := (FF.fin 9, FF.fin 9, FF.fin 9),
             b_center := (FF.fin 9, FF.fin 9, FF.fin 9) }]
          [(0, [0]), (1, [0])]
        = some (ns, es)
      ∧ ns.length = 2
      ∧ es.length = 1
      ∧ (∀ i, i < 2 →
          (ns.getD i default).position
            = objCoords
                [⟨0, FF.fin 1, FF.fin 2, FF.fin 3, FF.fin (-100)⟩,
                 ⟨1, FF.fin 4, FF.fin 5, FF.fin 6, FF.fin (-100)⟩] i) := by
  obtain ⟨ns, es, h0, h1, h2, h3, h4⟩ :=
    apply_sync
      { objs := [⟨0, FF.fin 1, FF.fin 2, FF.fin 3, FF.fin (-100)⟩,
                 ⟨1, FF.fin 4, FF.fin 5, FF.fin 6, FF.fin (-100)⟩],
        alpha := FF.fin 1 }
      [⟨(FF.fin 0, FF.fin 0, FF.fin 0)⟩, ⟨(FF.fin 0, FF.fin 0, FF.fin 0)⟩]
      [{ a_id := 0, b_id := 1, a_center := (FF.fin 9, FF.fin 9, FF.fin 9),
         b_center := (FF.fin 9, FF.fin 9, FF.fin 9) }]
      [(0, [0]), (1, [0])]
      rfl (by unfold WFAdj; decide)
  exact ⟨ns, es, h0, h1, h2, h3⟩
